import Mathlib

/-!
Shallow embedding of `netatmodata.py` (class `NetatmoData`) from the
netatmo-retrieve repository, together with theorems checking the
natural-language specification against it.

The embedding models:
* the decode loop at the end of `NetatmoData.get_data` (Python `range`
  semantics included, since the code builds timestamps with `range`);
* the session state (`autorization`/`authorization`/`stations` fields),
  `authorize`, `get_stations`, `get_data`, with the filesystem cache and
  the `lnetatmo.rawAPI` calls modelled as an explicit environment and an
  effect trace.
-/

namespace Netatmo

/-- Errors Python can raise in the modelled fragment. -/
inductive PyError where
  | valueError (msg : String)
  | indexError
  deriving DecidableEq, Repr

/-- One raw sample block of a `getmeasure` payload: `beg_time`, optional
`step_time`, and `value`, a list of tuples of numeric fields. -/
structure SampleBlock where
  beg_time : Int
  step_time : Option Int
  value : List (List Int)
  deriving DecidableEq, Repr

/-- Python `range(start, stop, step)` as a list. `range` with `step = 0`
raises `ValueError`; otherwise it yields
`start, start+step, ...` while the bound `stop` is not passed. -/
def pyRange (start stop step : Int) : Except PyError (List Int) :=
  if step = 0 then .error (.valueError "range() arg 3 must not be zero")
  else
    let n : Nat :=
      if 0 < step then (-((start - stop).ediv step)).toNat
      else (-((stop - start).ediv (-step))).toNat
    .ok ((List.range n).map fun k : Nat => start + (k : Int) * step)

/-- Python `t[0]`: first field of a value tuple (raises `IndexError` when
the tuple is empty). -/
def firstField : List Int → Except PyError Int
  | [] => .error .indexError
  | x :: _ => .ok x

/-- Decode one sample block, as the body of the `for m in measurements`
loop in `get_data` does: the timestamps contributed to `times` and the
first fields contributed to `values`. -/
def decodeBlock (m : SampleBlock) : Except PyError (List Int × List Int) := do
  let ts ← match m.step_time with
    | none => pure [m.beg_time]
    | some s => pyRange m.beg_time (m.beg_time + s * m.value.length) s
  let vs ← m.value.mapM firstField
  return (ts, vs)

/-- The decode loop of `get_data`: blocks are processed in payload order
and their contributions appended to the shared `times` and `values`
accumulators. -/
def decodePayload : List SampleBlock → Except PyError (List Int × List Int)
  | [] => .ok ([], [])
  | m :: rest => do
    let (ts, vs) ← decodeBlock m
    let (ts', vs') ← decodePayload rest
    return (ts ++ ts', vs ++ vs')

/-- A station object as returned by `getpublicdata`: its `_id` and its
`measures` mapping (module id, in API iteration order, to the module's
`type` list of measurement-type strings). Only the fields `get_data`
reads are carried. -/
structure Station where
  _id : String
  measures : List (String × List String)
  deriving DecidableEq, Repr

/-- The `for mid, measure in station["measures"].items()` loop of
`get_data`: the id of the first module whose `type` list contains
`measurement_type`, leaving `module_id = None` when none matches. -/
def resolveModule (station : Station) (measurement_type : String) : Option String :=
  (station.measures.find? fun p => measurement_type ∈ p.2).map (·.1)

/-- The area bounds, carried as their rendered decimal text (the code
only interpolates them into f-strings and API parameters). -/
structure AreaS where
  north : String
  west : String
  south : String
  east : String
  deriving DecidableEq, Repr

/-- Constructor arguments of `NetatmoData.__init__` that the modelled
methods read: `name`, `area`, and the epoch-second renderings of
`startdate`/`enddate`. -/
structure Config where
  name : String
  area : AreaS
  startdate : Int
  enddate : Int

/-- The station-list cache path built in `get_stations`:
`self.datadir.joinpath(f"stations-N{..}W{..}S{..}E{..}.json")` with
`datadir = Path(name)`. -/
def stationsFname (cfg : Config) : String :=
  cfg.name ++ "/" ++ "stations-N" ++ cfg.area.north ++ "W" ++ cfg.area.west
    ++ "S" ++ cfg.area.south ++ "E" ++ cfg.area.east ++ ".json"

/-- A Python `f"{module_id}"` interpolation of the `module_id` variable:
`None` renders as the literal text `None`. -/
def moduleIdStr : Option String → String
  | none => "None"
  | some m => m

/-- The series cache path built in `get_data`:
`self.datadir.joinpath(f"{station_id}-{module_id}-{measurement_type}.json")`. -/
def seriesFname (cfg : Config) (station_id : String) (module_id : Option String)
    (measurement_type : String) : String :=
  cfg.name ++ "/" ++ station_id ++ "-" ++ moduleIdStr module_id ++ "-"
    ++ measurement_type ++ ".json"

/-- The external collaborators: `lnetatmo.rawAPI` responses for the two
consumed operations. Authorization handles are numbered by creation. -/
structure Env where
  getpublicdata : AreaS → Bool → List Station
  getmeasure : String → Option String → String → Int → Int → List SampleBlock

/-- Observable side effects of a call, in order of occurrence. -/
inductive Effect where
  | authCreate
  | apiGetPublicData
  | apiGetMeasure (station_id : String) (module_id : Option String)
      (measurement_type : String)
  | fileRead (fname : String)
  | fileWrite (fname : String)
  | sleepFor (d : Nat)
  deriving DecidableEq, Repr

/-- The mutable session and disk state. `autorization` (sic, the
misspelled guard field set in `__init__`) and `authorization` (the field
`authorize` assigns) are distinct attributes, exactly as in the code.
The two cache-file families have disjoint name templates, so the disk is
carried as two partial maps from file name to parsed JSON content. -/
structure State where
  autorization : Option Nat
  authorization : Option Nat
  nextAuth : Nat
  stations : Option (List Station)
  stationFiles : String → Option (List Station)
  seriesFiles : String → Option (List SampleBlock)

/-- The session right after `__init__` on an empty cache directory:
`self.autorization = None`, `self.stations = None`, no `authorization`
attribute yet, nothing on disk. -/
def initState : State :=
  { autorization := none
    authorization := none
    nextAuth := 0
    stations := none
    stationFiles := fun _ => none
    seriesFiles := fun _ => none }

/-- `NetatmoData.authorize`: creates a `lnetatmo.ClientAuth()` handle
when `self.autorization` is `None`. The guard reads `autorization` but
the assignment writes `authorization`. Returns the new state and the
effects performed. -/
def authorize (s : State) : State × List Effect :=
  match s.autorization with
  | none =>
      ({ s with authorization := some s.nextAuth, nextAuth := s.nextAuth + 1 },
       [.authCreate])
  | some _ => (s, [])

/-- `NetatmoData.get_stations`: memoized return, else cache file, else
authorize + `getpublicdata` + cache write. Returns the new state, the
effect trace, and the returned station list. -/
def get_stations (cfg : Config) (env : Env) (filter_stations : Bool)
    (s : State) : State × List Effect × List Station :=
  match s.stations with
  | some l => (s, [], l)
  | none =>
    let fname := stationsFname cfg
    match s.stationFiles fname with
    | some l => ({ s with stations := some l }, [.fileRead fname], l)
    | none =>
      let (s1, es) := authorize s
      let l := env.getpublicdata cfg.area filter_stations
      let s2 := { s1 with
        stations := some l
        stationFiles := fun n => if n = fname then some l else s1.stationFiles n }
      (s2, .fileRead fname :: es ++ [.apiGetPublicData, .fileWrite fname], l)

/-- `NetatmoData.get_data`: ensure stations are loaded, locate the
station (raising `ValueError` when absent), resolve the module id, try
the series cache file, on miss authorize + `getmeasure` + cache write +
optional rate-limit sleep, then decode. Returns the new state, the
effect trace, and the result (`(times, values)` or the raised error). -/
def get_data (cfg : Config) (env : Env) (station_id measurement_type : String)
    (ratelimit : Option Nat) (s : State) :
    State × List Effect × Except PyError (List Int × List Int) :=
  let (s0, es0, stas) :=
    match s.stations with
    | some l => (s, ([] : List Effect), l)
    | none => get_stations cfg env true s
  match stas.filter (fun st => st._id = station_id) with
  | [] =>
      (s0, es0,
       .error (.valueError ("Station " ++ station_id ++ " not found.")))
  | station :: _ =>
    let module_id := resolveModule station measurement_type
    let fname := seriesFname cfg station_id module_id measurement_type
    match s0.seriesFiles fname with
    | some ms => (s0, es0 ++ [.fileRead fname], decodePayload ms)
    | none =>
      let (s1, es1) := authorize s0
      let ms := env.getmeasure station_id module_id measurement_type
        cfg.startdate cfg.enddate
      let s2 := { s1 with
        seriesFiles := fun n => if n = fname then some ms else s1.seriesFiles n }
      let esSleep : List Effect :=
        match ratelimit with
        | none => []
        | some d => [.sleepFor d]
      (s2,
       es0 ++ .fileRead fname :: es1
         ++ .apiGetMeasure station_id module_id measurement_type
            :: .fileWrite fname :: esSleep,
       decodePayload ms)

/-! Spec-side definitions, written from the specification's words, to be
compared with the definitions embedded from the source. -/

/-- The spec's expansion of one block's timestamps: the single `beg_time`
for a plain block, else `beg, beg+step, ..., beg+(n-1)*step` for the
block's `n` value tuples. -/
def specBlockTimes (m : SampleBlock) : List Int :=
  match m.step_time with
  | none => [m.beg_time]
  | some s => (List.range m.value.length).map fun k : Nat => m.beg_time + (k : Int) * s

/-- The spec's values of one block: the first field of each value tuple,
in order. -/
def specBlockValues (m : SampleBlock) : List Int :=
  m.value.map fun t => t.headD 0

/-- The spec's station-list cache key: file
`stations-N{north}W{west}S{south}E{east}.json` inside a directory named
after the session's `name`. -/
def specStationsKey (name north west south east : String) : String :=
  name ++ "/" ++ ("stations-N" ++ north ++ "W" ++ west ++ "S" ++ south
    ++ "E" ++ east ++ ".json")

/-- The spec's series cache key: file
`{station_id}-{module_id}-{measurement_type}.json` in the same
directory. -/
def specSeriesKey (name station_id module_id measurement_type : String) : String :=
  name ++ "/" ++ (station_id ++ "-" ++ module_id ++ "-" ++ measurement_type ++ ".json")

/-! Concrete fixtures used by witnesses and counterexamples. -/

/-- A station carrying a pressure module. -/
def stationP : Station :=
  { _id := "st1", measures := [("mod1", ["pressure", "temperature"])] }

/-- A station none of whose modules lists pressure. -/
def stationNoP : Station :=
  { _id := "st2", measures := [("modX", ["temperature"])] }

/-- A concrete environment: `getpublicdata` returns the two fixture
stations, `getmeasure` returns an empty payload. -/
def envW : Env :=
  { getpublicdata := fun _ _ => [stationP, stationNoP]
    getmeasure := fun _ _ _ _ _ => [] }

/-- A concrete session configuration. -/
def cfgW : Config :=
  { name := "data"
    area := { north := "55", west := "-130", south := "15", east := "-60" }
    startdate := 1642204800
    enddate := 1642377600 }

/-- Session with the station catalog memoized. -/
def stLoaded : State :=
  { initState with stations := some [stationP, stationNoP] }

/-- Catalog memoized and the `st1` pressure series cached. -/
def stHit : State :=
  { stLoaded with
    seriesFiles := fun n =>
      if n = "data/st1-mod1-pressure.json" then some [⟨1000, some 60, [[1], [2], [3]]⟩]
      else none }

/-- Catalog memoized; the cached payload's single-point block carries two
value tuples. -/
def stBad : State :=
  { stLoaded with
    seriesFiles := fun n =>
      if n = "data/st1-mod1-pressure.json" then some [⟨5, none, [[1], [2]]⟩]
      else none }

/-- Fresh session whose station-list cache file is already on disk. -/
def stDisk : State :=
  { initState with
    stationFiles := fun n =>
      if n = stationsFname cfgW then some [stationP, stationNoP] else none }

/-! Helper lemmas about the decode loop. -/

theorem ok_bind {α β : Type} (x : α) (f : α → Except PyError β) :
    (Except.ok x >>= f) = f x := rfl

theorem error_bind {α β : Type} (e : PyError) (f : α → Except PyError β) :
    ((Except.error e : Except PyError α) >>= f) = Except.error e := rfl

theorem pure_eq_ok {α : Type} (x : α) : (pure x : Except PyError α) = Except.ok x := rfl

theorem pyRange_exact (b s : Int) (n : Nat) (hs : s ≠ 0) :
    pyRange b (b + s * n) s = .ok ((List.range n).map fun k : Nat => b + (k : Int) * s) := by
  have key : (if 0 < s then (-((b - (b + s * n)).ediv s)).toNat
      else (-((b + s * n - b).ediv (-s))).toNat) = n := by
    rcases lt_or_gt_of_ne hs with hneg | hpos
    · rw [if_neg (by omega)]
      have h1 : (b + s * (n : Int) - b) = (-s) * (-(n : Int)) := by ring
      have h2 : ((-s) * (-(n : Int))).ediv (-s) = -(n : Int) :=
        Int.mul_ediv_cancel_left _ (by omega)
      rw [h1, h2]
      omega
    · rw [if_pos hpos]
      have h1 : (b - (b + s * (n : Int))) = s * (-(n : Int)) := by ring
      have h2 : (s * (-(n : Int))).ediv s = -(n : Int) :=
        Int.mul_ediv_cancel_left _ hs
      rw [h1, h2]
      omega
  simp only [pyRange, if_neg hs]
  rw [key]

theorem mapM_firstField_ok (l : List (List Int)) (h : ∀ t ∈ l, t ≠ []) :
    l.mapM firstField = .ok (l.map fun t => t.headD 0) := by
  induction l with
  | nil => rfl
  | cons t rest ih =>
    have ht := h t (by simp)
    match t, ht with
    | x :: xs, _ =>
      rw [List.mapM_cons, ih (fun u hu => h u (by simp [hu]))]
      rfl

theorem mapM_firstField_eq (l : List (List Int)) (vs : List Int)
    (h : l.mapM firstField = .ok vs) : vs = l.map fun t => t.headD 0 := by
  induction l generalizing vs with
  | nil =>
    rw [List.mapM_nil, pure_eq_ok, Except.ok.injEq] at h
    simp [← h]
  | cons t rest ih =>
    rw [List.mapM_cons] at h
    cases t with
    | nil =>
      simp only [firstField, error_bind] at h
      exact absurd h (by simp)
    | cons x xs =>
      simp only [firstField, ok_bind] at h
      cases hrest : rest.mapM firstField with
      | error e => rw [hrest, error_bind] at h; exact absurd h (by simp)
      | ok vs' =>
        rw [hrest, ok_bind, pure_eq_ok, Except.ok.injEq] at h
        subst h
        simp [ih vs' hrest]

theorem decodeBlock_ok (m : SampleBlock)
    (hstep : ∀ s, m.step_time = some s → s ≠ 0)
    (hval : ∀ t ∈ m.value, t ≠ []) :
    decodeBlock m = .ok (specBlockTimes m, specBlockValues m) := by
  cases hst : m.step_time with
  | none =>
    simp only [decodeBlock, hst, pure_eq_ok, ok_bind, mapM_firstField_ok m.value hval,
      specBlockTimes, specBlockValues]
  | some s =>
    simp only [decodeBlock, hst, pyRange_exact m.beg_time s m.value.length (hstep s hst),
      ok_bind, mapM_firstField_ok m.value hval, pure_eq_ok, specBlockTimes, specBlockValues]

theorem decodeBlock_eq (m : SampleBlock) (ts vs : List Int)
    (h : decodeBlock m = .ok (ts, vs)) :
    ts = specBlockTimes m ∧ vs = specBlockValues m := by
  cases hst : m.step_time with
  | none =>
    simp only [decodeBlock, hst, pure_eq_ok, ok_bind] at h
    cases hm : m.value.mapM firstField with
    | error e => rw [hm, error_bind] at h; exact absurd h (by simp)
    | ok vs' =>
      rw [hm, ok_bind] at h
      simp only [pure_eq_ok, Except.ok.injEq, Prod.mk.injEq] at h
      exact ⟨by simp [specBlockTimes, hst, ← h.1],
        by rw [← h.2]; simpa [specBlockValues] using mapM_firstField_eq m.value vs' hm⟩
  | some s =>
    by_cases hs : s = 0
    · subst hs
      simp [decodeBlock, hst, pyRange, error_bind] at h
    · simp only [decodeBlock, hst, pyRange_exact m.beg_time s m.value.length hs, ok_bind] at h
      cases hm : m.value.mapM firstField with
      | error e => rw [hm, error_bind] at h; exact absurd h (by simp)
      | ok vs' =>
        rw [hm, ok_bind] at h
        simp only [pure_eq_ok, Except.ok.injEq, Prod.mk.injEq] at h
        exact ⟨by simp [specBlockTimes, hst, ← h.1],
          by rw [← h.2]; simpa [specBlockValues] using mapM_firstField_eq m.value vs' hm⟩

theorem decodePayload_ok (ms : List SampleBlock)
    (hstep : ∀ m ∈ ms, ∀ s, m.step_time = some s → s ≠ 0)
    (hval : ∀ m ∈ ms, ∀ t ∈ m.value, t ≠ []) :
    decodePayload ms
      = .ok ((ms.map specBlockTimes).flatten, (ms.map specBlockValues).flatten) := by
  induction ms with
  | nil => simp [decodePayload]
  | cons m rest ih =>
    simp only [decodePayload,
      decodeBlock_ok m (hstep m (by simp)) (hval m (by simp)), ok_bind,
      ih (fun u hu => hstep u (by simp [hu])) (fun u hu => hval u (by simp [hu])),
      pure_eq_ok, List.map_cons, List.flatten_cons]

theorem decodePayload_eq (ms : List SampleBlock) (ts vs : List Int)
    (h : decodePayload ms = .ok (ts, vs)) :
    ts = (ms.map specBlockTimes).flatten ∧ vs = (ms.map specBlockValues).flatten := by
  induction ms generalizing ts vs with
  | nil =>
    simp only [decodePayload, Except.ok.injEq, Prod.mk.injEq] at h
    simp [← h.1, ← h.2]
  | cons m rest ih =>
    simp only [decodePayload] at h
    cases hb : decodeBlock m with
    | error e => rw [hb, error_bind] at h; exact absurd h (by simp)
    | ok p =>
      obtain ⟨ts1, vs1⟩ := p
      rw [hb, ok_bind] at h
      cases hr : decodePayload rest with
      | error e => rw [hr, error_bind] at h; exact absurd h (by simp)
      | ok q =>
        obtain ⟨ts2, vs2⟩ := q
        rw [hr, ok_bind] at h
        simp only [pure_eq_ok, Except.ok.injEq, Prod.mk.injEq] at h
        obtain ⟨h1, h2⟩ := decodeBlock_eq m ts1 vs1 hb
        obtain ⟨h3, h4⟩ := ih ts2 vs2 hr
        simp [← h.1, ← h.2, h1, h2, h3, h4]

theorem spec_flatten_length : ∀ ms : List SampleBlock,
    (∀ m ∈ ms, m.step_time = none → m.value.length = 1) →
    (ms.map specBlockTimes).flatten.length = (ms.map specBlockValues).flatten.length := by
  intro ms
  induction ms with
  | nil => intro _; rfl
  | cons m rest ih =>
    intro hone
    simp only [List.map_cons, List.flatten_cons, List.length_append]
    rw [ih (fun u hu h1 => hone u (by simp [hu]) h1)]
    congr 1
    cases hst : m.step_time with
    | none => simp [specBlockTimes, specBlockValues, hst, hone m (by simp) hst]
    | some s => simp [specBlockTimes, specBlockValues, hst]

/-! Claim theorems. -/

/-- C1: the decode loop of `get_data` processes blocks in payload order.
A block with begin time `b`, (positive) step interval `s` and `n` value
tuples contributes the `n` timestamps `b, b+s, ..., b+(n-1)*s` to the
times sequence and, in order, the first field of each of its `n` value
tuples to the values sequence; contributions of consecutive blocks are
concatenated in payload order. -/
theorem C1_step_expansion (ms : List SampleBlock)
    (hstep : ∀ m ∈ ms, 0 < m.step_time.getD 1)
    (hval : ∀ m ∈ ms, ∀ t ∈ m.value, t ≠ []) :
    decodePayload ms
      = .ok ((ms.map specBlockTimes).flatten, (ms.map specBlockValues).flatten) :=
  decodePayload_ok ms
    (fun m hm s hs => by
      have h0 := hstep m hm
      rw [hs] at h0
      simp only [Option.getD_some] at h0
      exact h0.ne')
    hval

/-- Witness for C1: the spec's sample block
`{beg_time: 1000, step_time: 60, value: [[1],[2],[3]]}` decodes to
`([1000, 1060, 1120], [1, 2, 3])`, and a stepped block followed by a
single-point block decodes to the concatenation of both in payload
order. -/
theorem C1_step_expansion_witness :
    decodePayload [⟨1000, some 60, [[1], [2], [3]]⟩]
      = .ok ([1000, 1060, 1120], [1, 2, 3])
    ∧ decodePayload [⟨1000, some 60, [[1], [2], [3]]⟩, ⟨2000, none, [[7]]⟩]
      = .ok ([1000, 1060, 1120] ++ [2000], [1, 2, 3] ++ [7]) := by
  constructor
  · rw [C1_step_expansion [⟨1000, some 60, [[1], [2], [3]]⟩] (by decide) (by decide)]
    rfl
  · rw [C1_step_expansion [⟨1000, some 60, [[1], [2], [3]]⟩, ⟨2000, none, [[7]]⟩]
      (by decide) (by decide)]
    rfl

/-- C2 (amended): provided every block lacking a step interval carries
exactly one value tuple, any `(times, values)` pair the decode loop of
`get_data` returns without raising has times and values of equal
length; and a payload with no sample blocks decodes to empty times and
values with no error. -/
theorem C2_equal_length_amended (ms : List SampleBlock) (ts vs : List Int)
    (hone : ∀ m ∈ ms, m.step_time = none → m.value.length = 1)
    (h : decodePayload ms = .ok (ts, vs)) :
    ts.length = vs.length ∧ decodePayload ([] : List SampleBlock) = .ok ([], []) := by
  obtain ⟨h1, h2⟩ := decodePayload_eq ms ts vs h
  exact ⟨by rw [h1, h2]; exact spec_flatten_length ms hone, rfl⟩

/-- Witness for C2 (amended) at a mixed stepped/single-point payload. -/
theorem C2_equal_length_amended_witness :
    ([1000, 1060, 1120, 2000] : List Int).length = ([1, 2, 3, 7] : List Int).length
    ∧ decodePayload ([] : List SampleBlock) = .ok ([], []) :=
  C2_equal_length_amended [⟨1000, some 60, [[1], [2], [3]]⟩, ⟨2000, none, [[7]]⟩]
    [1000, 1060, 1120, 2000] [1, 2, 3, 7] (by decide) (by rfl)

/-- C2 counterexample: with a cached payload whose single block has no
`step_time` but carries two value tuples, `get_data` returns a times
sequence of length 1 and a values sequence of length 2 — the lengths
differ, refuting the claim for arbitrary payloads. -/
theorem C2_equal_length_counterexample :
    ∃ ts vs, (get_data cfgW envW "st1" "pressure" none stBad).2.2 = .ok (ts, vs)
      ∧ ts.length ≠ vs.length :=
  ⟨[5], [1, 2], by rfl, by decide⟩

/-- C3: evaluating `authorize` twice on a fresh session shows the
memoization guard never trips: both calls construct a `ClientAuth`
handle (the guard reads the misspelled, never-updated `autorization`
attribute while the handle is stored in `authorization`), so two
handles exist after two calls — the Authorization Provider is invoked
on every call, not at most once. -/
theorem C3_authorize_recreates_handle :
    (authorize initState).2 = [Effect.authCreate]
    ∧ (authorize (authorize initState).1).2 = [Effect.authCreate]
    ∧ (authorize (authorize initState).1).1.nextAuth = 2 :=
  ⟨rfl, rfl, rfl⟩

/-- C4: when the series cache entry for the station/type pair exists,
`get_data` with any ratelimit argument performs only the cache-file
read — no API call, no authorization, no sleep; on a cache miss with
ratelimit `d`, it reads (missing) file, authorizes, issues the
`getmeasure` call, writes the cache file, and finally sleeps for `d`
seconds as the last effect before returning. -/
theorem C4_ratelimit_only_on_miss (cfg : Config) (env : Env)
    (sid ty : String) (st : State) (l : List Station)
    (station : Station) (rest : List Station)
    (hl : st.stations = some l)
    (hfind : l.filter (fun x => x._id = sid) = station :: rest) :
    (∀ (rl : Option Nat) (ms : List SampleBlock),
      st.seriesFiles (seriesFname cfg sid (resolveModule station ty) ty) = some ms →
      (get_data cfg env sid ty rl st).2.1
        = [Effect.fileRead (seriesFname cfg sid (resolveModule station ty) ty)])
    ∧ (∀ d : Nat,
      st.seriesFiles (seriesFname cfg sid (resolveModule station ty) ty) = none →
      (get_data cfg env sid ty (some d) st).2.1
        = Effect.fileRead (seriesFname cfg sid (resolveModule station ty) ty)
          :: (authorize st).2
          ++ [Effect.apiGetMeasure sid (resolveModule station ty) ty,
              Effect.fileWrite (seriesFname cfg sid (resolveModule station ty) ty),
              Effect.sleepFor d]) := by
  constructor
  · intro rl ms hms
    simp only [get_data, hl, hfind, hms, List.nil_append]
  · intro d hms
    rcases hauth : authorize st with ⟨s1, es1⟩
    simp only [get_data, hl, hfind, hms, hauth, List.nil_append]

/-- Witness for C4: on the pre-populated cache the trace is a single
file read (no sleep, no API call); on the empty cache with ratelimit 8
the trace ends with the sleep after the fetch and cache write. -/
theorem C4_ratelimit_only_on_miss_witness :
    (get_data cfgW envW "st1" "pressure" (some 8) stHit).2.1
      = [Effect.fileRead "data/st1-mod1-pressure.json"]
    ∧ (get_data cfgW envW "st1" "pressure" (some 8) stLoaded).2.1
      = [Effect.fileRead "data/st1-mod1-pressure.json", Effect.authCreate,
         Effect.apiGetMeasure "st1" (some "mod1") "pressure",
         Effect.fileWrite "data/st1-mod1-pressure.json", Effect.sleepFor 8] := by
  constructor
  · have h := (C4_ratelimit_only_on_miss cfgW envW "st1" "pressure" stHit
      [stationP, stationNoP] stationP [] rfl rfl).1 (some 8)
      [⟨1000, some 60, [[1], [2], [3]]⟩] rfl
    rw [h]
    rfl
  · have h := (C4_ratelimit_only_on_miss cfgW envW "st1" "pressure" stLoaded
      [stationP, stationNoP] stationP [] rfl rfl).2 8 rfl
    rw [h]
    rfl

/-- C5: with a pre-existing station-list cache file, the first
`get_stations` call returns the cached list with only a file read (no
network), a second call — with any filter flag — returns the identical
list with an empty effect trace and unchanged state, and every later
call on a session whose list is memoized returns the memoized list
unchanged regardless of the filter flag. -/
theorem C5_get_stations_idempotent (cfg : Config) (env : Env) (st : State)
    (l : List Station) (f1 f2 : Bool)
    (hs : st.stations = none)
    (hf : st.stationFiles (stationsFname cfg) = some l) :
    (get_stations cfg env f1 st).2.2 = l
    ∧ (get_stations cfg env f1 st).2.1 = [Effect.fileRead (stationsFname cfg)]
    ∧ get_stations cfg env f2 (get_stations cfg env f1 st).1
        = ((get_stations cfg env f1 st).1, [], l)
    ∧ ∀ st' : State, st'.stations = some l →
        get_stations cfg env f2 st' = (st', [], l) := by
  have h1 : get_stations cfg env f1 st
      = ({ st with stations := some l }, [Effect.fileRead (stationsFname cfg)], l) := by
    simp only [get_stations, hs, hf]
  refine ⟨by rw [h1], by rw [h1], ?_, ?_⟩
  · rw [h1]
    rfl
  · intro st' hst'
    simp only [get_stations, hst']

/-- Witness for C5 on a fresh session with the cache file on disk. -/
theorem C5_get_stations_idempotent_witness :
    (get_stations cfgW envW true stDisk).2.2 = [stationP, stationNoP]
    ∧ (get_stations cfgW envW true stDisk).2.1 = [Effect.fileRead (stationsFname cfgW)]
    ∧ get_stations cfgW envW false (get_stations cfgW envW true stDisk).1
        = ((get_stations cfgW envW true stDisk).1, [], [stationP, stationNoP])
    ∧ get_stations cfgW envW false stLoaded = (stLoaded, [], [stationP, stationNoP]) := by
  have h := C5_get_stations_idempotent cfgW envW stDisk [stationP, stationNoP]
    true false rfl (by rfl)
  exact ⟨h.1, h.2.1, h.2.2.1, h.2.2.2 stLoaded rfl⟩

/-- C6: with the catalog loaded and the requested station id absent
from it, `get_data` raises the station-not-found `ValueError`, performs
no effect at all (no network call, no cache read or write), and leaves
the session state — in particular the loaded catalog — unchanged. -/
theorem C6_unknown_station (cfg : Config) (env : Env) (sid ty : String)
    (rl : Option Nat) (st : State) (l : List Station)
    (hl : st.stations = some l)
    (habs : ∀ station ∈ l, station._id ≠ sid) :
    get_data cfg env sid ty rl st
      = (st, [], .error (.valueError ("Station " ++ sid ++ " not found."))) := by
  have hfil : l.filter (fun x => x._id = sid) = [] :=
    List.filter_eq_nil_iff.mpr (fun a ha => by simpa using habs a ha)
  simp only [get_data, hl, hfil]

/-- Witness for C6 at a station id not in the loaded catalog. -/
theorem C6_unknown_station_witness :
    get_data cfgW envW "ghost" "pressure" none stLoaded
      = (stLoaded, [], .error (.valueError "Station ghost not found.")) :=
  C6_unknown_station cfgW envW "ghost" "pressure" none stLoaded
    [stationP, stationNoP] rfl (by decide)

/-- C7: for a station none of whose modules lists the requested
measurement type, module resolution yields `none` (no exception), and
`get_data` — here on the cache-miss path with the API returning the
empty payload the spec foresees for a null module id — returns
`(times = [], values = [])` instead of raising. -/
theorem C7_module_not_found (cfg : Config) (env : Env) (sid ty : String)
    (rl : Option Nat) (st : State) (l : List Station)
    (station : Station) (rest : List Station)
    (hl : st.stations = some l)
    (hfind : l.filter (fun x => x._id = sid) = station :: rest)
    (hmod : ∀ p ∈ station.measures, ty ∉ p.2)
    (hmiss : st.seriesFiles (seriesFname cfg sid none ty) = none)
    (hemp : env.getmeasure sid none ty cfg.startdate cfg.enddate = []) :
    resolveModule station ty = none
    ∧ (get_data cfg env sid ty rl st).2.2 = .ok ([], []) := by
  have hres : resolveModule station ty = none := by
    unfold resolveModule
    rw [List.find?_eq_none.mpr (fun p hp => by simpa using hmod p hp)]
    rfl
  refine ⟨hres, ?_⟩
  rcases hauth : authorize st with ⟨s1, es1⟩
  simp only [get_data, hl, hfind, hres, hmiss, hauth, hemp]
  rfl

/-- Witness for C7 at a station carrying only a temperature module. -/
theorem C7_module_not_found_witness :
    resolveModule stationNoP "pressure" = none
    ∧ (get_data cfgW envW "st2" "pressure" none stLoaded).2.2 = .ok ([], []) :=
  C7_module_not_found cfgW envW "st2" "pressure" none stLoaded
    [stationP, stationNoP] stationNoP [] rfl rfl (by decide) rfl rfl

/-- C8 counterexample: decoding a block with `step_time = 0` does not
terminate normally — `range` raises `ValueError` on a zero step, and
the decode step contains no explicit guard against it. -/
theorem C8_zero_step_counterexample :
    decodePayload [⟨1000, some 0, [[1]]⟩]
      = .error (.valueError "range() arg 3 must not be zero") := by rfl

/-- C8 (amended): for every block with `step_time = 0`, the decode step
terminates with the `ValueError` raised by `range` — it neither loops
forever nor returns a value; the code relies on `range` rejecting a
zero step rather than guarding explicitly. -/
theorem C8_zero_step_amended (b : Int) (vts : List (List Int)) :
    decodeBlock ⟨b, some 0, vts⟩
      = .error (.valueError "range() arg 3 must not be zero") := by
  simp [decodeBlock, pyRange, error_bind]

/-- C9: the cache keys match the spec's templates byte for byte — the
station-list file is `stations-N{north}W{west}S{south}E{east}.json`
inside the directory named after the session's name, and each series
file is `{station_id}-{module_id}-{measurement_type}.json` in the same
directory; both are pure functions of those parameters. -/
theorem C9_cache_key_templates (cfg : Config)
    (station_id module_id measurement_type : String) :
    stationsFname cfg
      = specStationsKey cfg.name cfg.area.north cfg.area.west cfg.area.south cfg.area.east
    ∧ seriesFname cfg station_id (some module_id) measurement_type
      = specSeriesKey cfg.name station_id module_id measurement_type := by
  constructor <;>
    simp only [stationsFname, specStationsKey, seriesFname, specSeriesKey, moduleIdStr,
      String.append_assoc]

/-- C10: when no module of the station lists the requested type,
`get_data` still runs the full cache-then-fetch path with a null module
id: the series cache key embeds the literal text `None` as the
module-id component, on a cache miss the `getmeasure` call is issued
with module id `None` and its payload is cached under that key, and the
rate-limit sleep is still applied after the fetch. -/
theorem C10_none_module_full_path (cfg : Config) (env : Env) (sid ty : String)
    (d : Nat) (st : State) (l : List Station)
    (station : Station) (rest : List Station)
    (hl : st.stations = some l)
    (hfind : l.filter (fun x => x._id = sid) = station :: rest)
    (hmod : ∀ p ∈ station.measures, ty ∉ p.2)
    (hmiss : st.seriesFiles (seriesFname cfg sid none ty) = none) :
    seriesFname cfg sid (resolveModule station ty) ty
      = specSeriesKey cfg.name sid "None" ty
    ∧ (get_data cfg env sid ty (some d) st).2.1
      = Effect.fileRead (seriesFname cfg sid none ty)
        :: (authorize st).2
        ++ [Effect.apiGetMeasure sid none ty,
            Effect.fileWrite (seriesFname cfg sid none ty),
            Effect.sleepFor d]
    ∧ (get_data cfg env sid ty (some d) st).1.seriesFiles (seriesFname cfg sid none ty)
      = some (env.getmeasure sid none ty cfg.startdate cfg.enddate) := by
  have hres : resolveModule station ty = none := by
    unfold resolveModule
    rw [List.find?_eq_none.mpr (fun p hp => by simpa using hmod p hp)]
    rfl
  refine ⟨?_, ?_, ?_⟩
  · rw [hres]
    simp only [seriesFname, specSeriesKey, moduleIdStr, String.append_assoc]
  · rcases hauth : authorize st with ⟨s1, es1⟩
    simp only [get_data, hl, hfind, hres, hmiss, hauth, List.nil_append]
  · rcases hauth : authorize st with ⟨s1, es1⟩
    simp only [get_data, hl, hfind, hres, hmiss, hauth]
    simp

/-- Witness for C10: the key is `data/st2-None-pressure.json`, the miss
path fetches with a null module id, caches the payload under that key
and sleeps for the requested 8 seconds. -/
theorem C10_none_module_full_path_witness :
    seriesFname cfgW "st2" (resolveModule stationNoP "pressure") "pressure"
      = specSeriesKey "data" "st2" "None" "pressure"
    ∧ (get_data cfgW envW "st2" "pressure" (some 8) stLoaded).2.1
      = [Effect.fileRead "data/st2-None-pressure.json", Effect.authCreate,
         Effect.apiGetMeasure "st2" none "pressure",
         Effect.fileWrite "data/st2-None-pressure.json", Effect.sleepFor 8]
    ∧ (get_data cfgW envW "st2" "pressure" (some 8) stLoaded).1.seriesFiles
        "data/st2-None-pressure.json" = some [] := by
  have h := C10_none_module_full_path cfgW envW "st2" "pressure" 8 stLoaded
    [stationP, stationNoP] stationNoP [] rfl rfl (by decide) rfl
  refine ⟨h.1, ?_, ?_⟩
  · rw [h.2.1]
    rfl
  · exact h.2.2

end Netatmo
